/-
Verification of the booking bot's core logic: the local booking ledger
(db.py) and the club API client (api_client.py), shallowly embedded in
Lean 4. Times and dates are the TEXT values stored in SQLite ("HH:MM",
"YYYY-MM-DD"); SQLite compares TEXT bytewise, which on UTF-8 equals
lexicographic comparison of the codepoint sequences, modelled here by
`sqlite_text_lt`.
-/
import Mathlib

set_option maxRecDepth 4000

/-! ## SQLite TEXT comparison -/

/-- Lexicographic strict order on codepoint sequences: SQLite's bytewise
TEXT comparison (BINARY collation) on UTF-8 strings. -/
def codepoints_lt : List Char → List Char → Bool
  | [], [] => false
  | [], _ :: _ => true
  | _ :: _, [] => false
  | a :: as, b :: bs =>
    if a.toNat < b.toNat then true
    else if b.toNat < a.toNat then false
    else codepoints_lt as bs

/-- SQLite `<` on TEXT values. -/
def sqlite_text_lt (a b : String) : Bool :=
  codepoints_lt a.data b.data

/-! ## Booking ledger (db.py)

A row of the `bookings` table. `id` is the AUTOINCREMENT primary key;
`api_booking_id` is nullable. -/

structure BookingRow where
  id : Nat
  user_id : Int
  pc_number : Int
  date : String
  time_from : String
  time_to : String
  api_booking_id : Option Int
deriving DecidableEq, Repr

/-- The ledger state: the table rows plus the AUTOINCREMENT sequence
(`seq` is the id the next insert receives; AUTOINCREMENT never reuses
ids, so `seq` is strictly above every id ever assigned). -/
structure LedgerDB where
  rows : List BookingRow
  seq : Nat
deriving DecidableEq, Repr

/-- Well-formedness maintained by the schema: every stored id is below
the AUTOINCREMENT sequence. -/
def LedgerDB.wf (db : LedgerDB) : Prop :=
  ∀ r ∈ db.rows, r.id < db.seq

/-- db.py `is_pc_available`: true iff no row with the same `pc_number`
and `date` satisfies `time_from < ?` (new `time_to`) and `time_to > ?`
(new `time_from`). -/
def is_pc_available (db : LedgerDB) (pc : Int) (date time_from time_to : String) : Bool :=
  !(db.rows.any fun b =>
      b.pc_number == pc && b.date == date &&
      sqlite_text_lt b.time_from time_to && sqlite_text_lt time_from b.time_to)

/-- db.py `add_booking`: INSERT a new row; the fresh id is the
AUTOINCREMENT sequence value. -/
def add_booking (db : LedgerDB) (user_id : Int) (pc : Int)
    (date time_from time_to : String) (api_booking_id : Option Int) : LedgerDB :=
  { rows := db.rows ++ [⟨db.seq, user_id, pc, date, time_from, time_to, api_booking_id⟩]
    seq := db.seq + 1 }

/-- db.py `update_booking_api_id`: UPDATE the row with the given id. -/
def update_booking_api_id (db : LedgerDB) (booking_id : Nat) (api_booking_id : Int) : LedgerDB :=
  { db with rows := db.rows.map fun r =>
      if r.id == booking_id then { r with api_booking_id := some api_booking_id } else r }

/-- Accumulator for `ORDER BY id DESC LIMIT 1`: keep the row with the
greatest id seen so far. -/
def last_by_id (best : Option BookingRow) (r : BookingRow) : Option BookingRow :=
  match best with
  | none => some r
  | some b => if b.id < r.id then some r else some b

/-- db.py `get_last_booking`: SELECT rows of the user, ORDER BY id DESC,
LIMIT 1 — the matching row with the numerically greatest id. -/
def get_last_booking (db : LedgerDB) (user_id : Int) : Option BookingRow :=
  (db.rows.filter fun r => r.user_id == user_id).foldl last_by_id none

/-- db.py `delete_booking`: DELETE FROM bookings WHERE id = ?. -/
def delete_booking (db : LedgerDB) (booking_id : Nat) : LedgerDB :=
  { db with rows := db.rows.filter fun r => r.id != booking_id }

/-! ## Claim C1 -/

/-- C1: `is_pc_available` returns true iff no existing row with the same
station and date satisfies `existing.time_from < newTimeTo ∧
existing.time_to > newTimeFrom`; in particular a ledger whose matching
rows all merely touch the queried interval (no strict overlap on either
side, which covers an existing booking ending exactly at the new start
or starting exactly at the new end) is reported available. -/
theorem is_pc_available_iff_no_overlap (db : LedgerDB) (pc : Int)
    (date time_from time_to : String) :
    (is_pc_available db pc date time_from time_to = true ↔
      ¬ ∃ b ∈ db.rows, b.pc_number = pc ∧ b.date = date ∧
        sqlite_text_lt b.time_from time_to = true ∧
        sqlite_text_lt time_from b.time_to = true) ∧
    ((∀ b ∈ db.rows, b.pc_number = pc → b.date = date →
        sqlite_text_lt time_from b.time_to = false ∨
        sqlite_text_lt b.time_from time_to = false) →
      is_pc_available db pc date time_from time_to = true) := by
  constructor
  · simp only [is_pc_available, Bool.not_eq_true', List.any_eq_false, Bool.and_eq_true,
      beq_iff_eq, not_and, and_imp]
    constructor
    · rintro h ⟨b, hb, h1, h2, h3, h4⟩
      exact h b hb h1 h2 h3 h4
    · intro h b hb h1 h2 h3 h4
      exact h ⟨b, hb, h1, h2, h3, h4⟩
  · intro htouch
    simp only [is_pc_available, Bool.not_eq_true', List.any_eq_false, Bool.and_eq_true,
      beq_iff_eq, not_and, and_imp]
    intro b hb h1 h2 h3 h4
    rcases htouch b hb h1 h2 with h5 | h5
    · rw [h4] at h5
      exact Bool.noConfusion h5
    · rw [h3] at h5
      exact Bool.noConfusion h5

/-- Witness for C1: a ledger holding a booking on PC 3 from 10:00 to
12:00 leaves the touching slot 12:00–13:00 available. -/
theorem is_pc_available_iff_no_overlap_witness :
    is_pc_available ⟨[⟨1, 7, 3, "2025-01-15", "10:00", "12:00", none⟩], 2⟩
      3 "2025-01-15" "12:00" "13:00" = true :=
  (is_pc_available_iff_no_overlap ⟨[⟨1, 7, 3, "2025-01-15", "10:00", "12:00", none⟩], 2⟩
    3 "2025-01-15" "12:00" "13:00").2 (by decide)

/-! ## Claim C8 -/

/-- The `last_by_id` fold returns a member of the list or its initial
accumulator. -/
lemma get_last_fold_mem (l : List BookingRow) (acc : Option BookingRow) (m : BookingRow)
    (h : l.foldl last_by_id acc = some m) : m ∈ l ∨ acc = some m := by
  induction l generalizing acc with
  | nil => exact Or.inr h
  | cons x xs ih =>
    simp only [List.foldl_cons] at h
    rcases ih _ h with hm | hacc
    · exact Or.inl (List.mem_cons_of_mem _ hm)
    · cases acc with
      | none =>
        left
        obtain rfl : x = m := by simpa [last_by_id] using hacc
        exact List.mem_cons_self _ _
      | some b =>
        by_cases hlt : b.id < x.id
        · left
          simp only [last_by_id, if_pos hlt] at hacc
          obtain rfl : x = m := by simpa using hacc
          exact List.mem_cons_self _ _
        · right
          simpa [last_by_id, if_neg hlt] using hacc

/-- C8: after `add_booking` inserts a row for a user into a
well-formed ledger, `get_last_booking` for that user returns exactly
the just-inserted row (the one with the numerically greatest id); on a
ledger where the user has no rows, it returns `none`. -/
theorem add_booking_get_last_booking (db : LedgerDB) (user_id pc : Int)
    (date time_from time_to : String) (api : Option Int) (hwf : db.wf) :
    get_last_booking (add_booking db user_id pc date time_from time_to api) user_id =
      some ⟨db.seq, user_id, pc, date, time_from, time_to, api⟩ ∧
    ((db.rows.filter fun r => r.user_id == user_id) = [] →
      get_last_booking db user_id = none) := by
  constructor
  · unfold get_last_booking add_booking
    simp only [List.filter_append]
    have hnew : List.filter (fun r : BookingRow => r.user_id == user_id)
        [⟨db.seq, user_id, pc, date, time_from, time_to, api⟩] =
        [⟨db.seq, user_id, pc, date, time_from, time_to, api⟩] := by simp
    rw [hnew, List.foldl_append, List.foldl_cons, List.foldl_nil]
    cases hres : (db.rows.filter fun r => r.user_id == user_id).foldl last_by_id none with
    | none => rfl
    | some m =>
      have hm : m ∈ db.rows.filter fun r => r.user_id == user_id := by
        rcases get_last_fold_mem _ _ _ hres with hm | hbad
        · exact hm
        · exact Option.noConfusion hbad
      have hlt : m.id < db.seq := hwf m (List.mem_filter.mp hm).1
      simp [last_by_id, hlt]
  · intro hempty
    rw [get_last_booking, hempty, List.foldl_nil]

/-- Witness for C8: inserting a second booking for user 7 makes
`get_last_booking` return it. -/
theorem add_booking_get_last_booking_witness :
    get_last_booking
      (add_booking ⟨[⟨1, 7, 3, "2025-01-10", "10:00", "11:00", none⟩], 2⟩
        7 5 "2025-01-12" "14:00" "16:00" (some 99)) 7 =
      some ⟨2, 7, 5, "2025-01-12", "14:00", "16:00", some 99⟩ :=
  (add_booking_get_last_booking ⟨[⟨1, 7, 3, "2025-01-10", "10:00", "11:00", none⟩], 2⟩
    7 5 "2025-01-12" "14:00" "16:00" (some 99)
    (by intro r hr; rw [List.mem_singleton] at hr; subst hr; decide)).1

/-! ## Claim C10 -/

/-- C10: `delete_booking` keeps exactly the rows whose id differs from
the given one, is a no-op (and reports no error) when no row has that
id, and is idempotent. -/
theorem delete_booking_frame (db : LedgerDB) (booking_id : Nat) :
    (∀ r, r ∈ (delete_booking db booking_id).rows ↔ r ∈ db.rows ∧ r.id ≠ booking_id) ∧
    ((∀ r ∈ db.rows, r.id ≠ booking_id) → delete_booking db booking_id = db) ∧
    delete_booking (delete_booking db booking_id) booking_id = delete_booking db booking_id := by
  refine ⟨?_, ?_, ?_⟩
  · intro r
    simp [delete_booking, List.mem_filter]
  · intro h
    have heq : db.rows.filter (fun r => r.id != booking_id) = db.rows := by
      apply List.filter_eq_self.mpr
      intro r hr
      simpa using h r hr
    simp [delete_booking, heq]
  · simp [delete_booking, List.filter_filter]

/-! ## API client: authenticate (api_client.py lines 92-231)

One attempt of the authentication request is abstracted by its outcome:
an HTTP 200 carrying the `token` field extracted from the `result`
object (possibly absent or empty), a non-200 HTTP status, or a raised
exception. Exceptions are dispatched through the `except` clauses in
source order, using `isinstance` against aiohttp's exception hierarchy;
crucially, `aiohttp.ClientSSLError` (and the certificate-validation
errors derived from it) is a subclass of
`aiohttp.ClientConnectorError`. -/

inductive AttemptExc where
  | connError
  | sslError
  | timeoutError
  | otherError
deriving DecidableEq, Repr

inductive Outcome where
  | ok (token : Option String)
  | httpStatus (status : Nat)
  | raised (exc : AttemptExc)
deriving DecidableEq, Repr

/-- `isinstance(e, aiohttp.ClientConnectorError)`: true for plain
connection errors and for SSL errors, since aiohttp declares
`class ClientSSLError(ClientConnectorError)`. -/
def isinstance_client_connector_error : AttemptExc → Bool
  | .connError => true
  | .sslError => true
  | .timeoutError => false
  | .otherError => false

/-- `isinstance(e, asyncio.TimeoutError)`. -/
def isinstance_timeout_error : AttemptExc → Bool
  | .timeoutError => true
  | _ => false

/-- `isinstance(e, aiohttp.ClientSSLError)`. -/
def isinstance_client_ssl_error : AttemptExc → Bool
  | .sslError => true
  | _ => false

/-- Python truthiness of `self.token` after `result.get("token")`: the
check `if not self.token` fails the call when the token is absent
(`None`) or the empty string. -/
def token_truthy : Option String → Bool
  | none => false
  | some s => s != ""

/-- `retryable_statuses = {500, 502, 503, 504}`. -/
def retryable_status (s : Nat) : Bool :=
  s == 500 || s == 502 || s == 503 || s == 504

/-- The retryable outcomes named by the spec: a retryable HTTP status,
a connection error, a timeout, or an unexpected exception — not an SSL
error and not an HTTP 200. -/
def is_retryable : Outcome → Bool
  | .ok _ => false
  | .httpStatus s => retryable_status s
  | .raised .connError => true
  | .raised .timeoutError => true
  | .raised .sslError => false
  | .raised .otherError => true

/-- Observable result of a full `authenticate` run: the returned
boolean, the number of attempts performed, and the list of backoff
sleeps (in seconds, in order). -/
structure AuthResult where
  success : Bool
  attempts : Nat
  sleeps : List Nat
deriving DecidableEq, Repr

/-- `delay = 5 * (2 ** (attempt - 1))` from the retry branches. -/
def backoff_delay (attempt : Nat) : Nat := 5 * 2 ^ (attempt - 1)

/-- The `for attempt in range(1, max_retries + 1)` loop of
`authenticate` at loop index `attempt`, driven by the per-attempt
outcomes `o`; `fuel` counts the loop indices still to run
(`max_retries + 1 - attempt`), so exhausting it is falling off the
loop and returning `False` after `attempt - 1` attempts. Each raised
exception goes to the first `except` clause whose class matches, in
source order: `ClientConnectorError`, then `asyncio.TimeoutError`,
then `ClientSSLError` (unreachable, because SSL errors already match
`ClientConnectorError`), then bare `Exception`. -/
def auth_go (o : Nat → Outcome) (max_retries : Nat) : Nat → Nat → AuthResult
  | attempt, 0 => ⟨false, attempt - 1, []⟩
  | attempt, fuel + 1 =>
    match o attempt with
    | .ok token =>
      if token_truthy token then ⟨true, attempt, []⟩ else ⟨false, attempt, []⟩
    | .httpStatus s =>
      if retryable_status s then
        if attempt < max_retries then
          let r := auth_go o max_retries (attempt + 1) fuel
          ⟨r.success, r.attempts, backoff_delay attempt :: r.sleeps⟩
        else ⟨false, attempt, []⟩
      else ⟨false, attempt, []⟩
    | .raised exc =>
      if isinstance_client_connector_error exc then
        if attempt < max_retries then
          let r := auth_go o max_retries (attempt + 1) fuel
          ⟨r.success, r.attempts, backoff_delay attempt :: r.sleeps⟩
        else ⟨false, attempt, []⟩
      else if isinstance_timeout_error exc then
        if attempt < max_retries then
          let r := auth_go o max_retries (attempt + 1) fuel
          ⟨r.success, r.attempts, backoff_delay attempt :: r.sleeps⟩
        else ⟨false, attempt, []⟩
      else if isinstance_client_ssl_error exc then
        ⟨false, attempt, []⟩
      else
        if attempt < max_retries then
          let r := auth_go o max_retries (attempt + 1) fuel
          ⟨r.success, r.attempts, backoff_delay attempt :: r.sleeps⟩
        else ⟨false, attempt, []⟩

/-- api_client.py `ClubAPI.authenticate(max_retries)`: run the attempt
loop from attempt 1 with `max_retries` loop indices to go. -/
def authenticate (max_retries : Nat) (o : Nat → Outcome) : AuthResult :=
  auth_go o max_retries 1 max_retries

/-- The sleep schedule after `n` consecutive failed retryable attempts
starting at attempt 1: `5 * 2 ^ i` for `i = 0, …, n-1`. -/
def backoff_schedule (n : Nat) : List Nat :=
  (List.range n).map fun i => 5 * 2 ^ i
/-! ## API client: host cache (api_client.py lines 299-421)

`get_hosts()` returns a list of host records or `None` on failure; only
the optional `number` and `id` fields matter to the cache. The cache
`self._hosts_cache` is `None` until loaded. Calls that would hit the
network are abstracted by the value `get_hosts()` would produce
(`fetched`). -/

structure Host where
  number : Option Int
  id : Option Int
deriving DecidableEq, Repr

/-- The cache dictionary, as its insertion sequence: iterating
`_load_hosts_cache`'s loop appends one `(number, id)` entry per host
record carrying both fields. -/
def build_hosts_cache (hosts : List Host) : List (Int × Int) :=
  hosts.foldl
    (fun cache h =>
      match h.number, h.id with
      | some n, some i => cache ++ [(n, i)]
      | _, _ => cache)
    []

/-- Python dict lookup over the insertion sequence: the last write to a
key wins. `none` means the key is absent. -/
def dict_get (cache : List (Int × Int)) (k : Int) : Option Int :=
  (cache.reverse.find? fun p => p.1 == k).map Prod.snd

/-- api_client.py `ClubAPI._load_hosts_cache`: a no-op returning `True`
when the cache is already set; otherwise builds it from `get_hosts()`,
returning `False` (cache left unset) when that failed. Result: the new
cache state and the returned boolean. -/
def _load_hosts_cache (cache : Option (List (Int × Int)))
    (fetched : Option (List Host)) : Option (List (Int × Int)) × Bool :=
  match cache with
  | some c => (some c, true)
  | none =>
    match fetched with
    | none => (none, false)
    | some hosts => (some (build_hosts_cache hosts), true)

/-- api_client.py `ClubAPI._map_pc_to_host_id`: loads the cache, then
returns the mapped id when `self._hosts_cache` is truthy (set and
non-empty) and contains the PC number, else falls back to the PC number
itself. Result: the new cache state and the returned id. -/
def _map_pc_to_host_id (cache : Option (List (Int × Int)))
    (fetched : Option (List Host)) (pc_number : Int) :
    Option (List (Int × Int)) × Int :=
  let st := _load_hosts_cache cache fetched
  match st.1 with
  | some c =>
    if c.isEmpty then (st.1, pc_number)
    else
      match dict_get c pc_number with
      | some host_id => (st.1, host_id)
      | none => (st.1, pc_number)
  | none => (st.1, pc_number)

/-! ## Claim C4 -/

/-- A successful dict lookup needs a non-empty dict. -/
lemma dict_get_isEmpty_false (cache : List (Int × Int)) (k v : Int)
    (h : dict_get cache k = some v) : cache.isEmpty = false := by
  cases cache with
  | nil => simp [dict_get] at h
  | cons p ps => rfl

/-- C4: `_map_pc_to_host_id` on an unloaded cache returns the mapped id
whenever the PC number is a key of the cache built from a successful
`get_hosts()` result, and returns the PC number itself unchanged when
the key is absent or `get_hosts()` failed — never a hard failure. -/
theorem map_pc_to_host_id_spec (fetched : Option (List Host)) (pc_number : Int) :
    (∀ hosts host_id, fetched = some hosts →
      dict_get (build_hosts_cache hosts) pc_number = some host_id →
      (_map_pc_to_host_id none fetched pc_number).2 = host_id) ∧
    (∀ hosts, fetched = some hosts →
      dict_get (build_hosts_cache hosts) pc_number = none →
      (_map_pc_to_host_id none fetched pc_number).2 = pc_number) ∧
    (fetched = none → (_map_pc_to_host_id none fetched pc_number).2 = pc_number) := by
  refine ⟨?_, ?_, ?_⟩
  · rintro hosts host_id rfl hget
    have hne := dict_get_isEmpty_false _ _ _ hget
    simp [_map_pc_to_host_id, _load_hosts_cache, hne, hget]
  · rintro hosts rfl hget
    by_cases hemp : (build_hosts_cache hosts).isEmpty
    · simp [_map_pc_to_host_id, _load_hosts_cache, hemp]
    · simp [_map_pc_to_host_id, _load_hosts_cache, hemp, hget]
  · rintro rfl
    rfl

/-- Witness for C4: with hosts mapping PC 1 → id 5 and PC 2 → id 6,
PC 2 resolves to 6. -/
theorem map_pc_to_host_id_spec_witness :
    (_map_pc_to_host_id none (some [⟨some 1, some 5⟩, ⟨some 2, some 6⟩]) 2).2 = 6 :=
  (map_pc_to_host_id_spec (some [⟨some 1, some 5⟩, ⟨some 2, some 6⟩]) 2).1
    [⟨some 1, some 5⟩, ⟨some 2, some 6⟩] 6 rfl (by decide)

/-! ## Claim C9 -/

/-- C9: once the host cache is populated, it is never cleared or
rebuilt: any further load request is a no-op returning `True`, and
`_map_pc_to_host_id` leaves the cache untouched and reads the same
mapping regardless of what `get_hosts()` would now return. -/
theorem hosts_cache_never_invalidated (c : List (Int × Int))
    (fetched fetched' : Option (List Host)) (pc_number : Int) :
    _load_hosts_cache (some c) fetched = (some c, true) ∧
    (_map_pc_to_host_id (some c) fetched pc_number).1 = some c ∧
    _map_pc_to_host_id (some c) fetched pc_number =
      _map_pc_to_host_id (some c) fetched' pc_number := by
  refine ⟨rfl, ?_, rfl⟩
  by_cases hemp : c.isEmpty
  · simp [_map_pc_to_host_id, _load_hosts_cache, hemp]
  · cases hget : dict_get c pc_number <;>
      simp [_map_pc_to_host_id, _load_hosts_cache, hemp, hget]

/-! ## Claim C2 -/

/-- C2 (failing behavior): a TLS/certificate validation error is NOT
surfaced immediately. `aiohttp.ClientSSLError` subclasses
`aiohttp.ClientConnectorError`, and the `except ClientConnectorError`
clause comes first, so an SSL error on every attempt with
`max_retries = 2` is retried: two attempts and a 5-second backoff
sleep, where the claim demands exactly one attempt and no sleep. The
dedicated no-retry SSL handler in the code is unreachable. -/
theorem authenticate_ssl_error_retries :
    authenticate 2 (fun _ => Outcome.raised AttemptExc.sslError) = ⟨false, 2, [5]⟩ := by
  decide

/-! ## Claim C3 -/

/-- Running the loop from attempt `a` over retryable outcomes up to
`max_retries` exhausts the attempts, sleeping `backoff_delay i` after
every attempt `i < max_retries` and not after the last. -/
lemma auth_go_all_retryable : ∀ (fuel : Nat) (o : Nat → Outcome) (mr a : Nat),
    fuel = mr + 1 - a → 1 ≤ a → a ≤ mr →
    (∀ i, a ≤ i → i ≤ mr → is_retryable (o i) = true) →
    auth_go o mr a fuel =
      ⟨false, mr, (List.range (mr - a)).map fun j => backoff_delay (a + j)⟩ := by
  intro fuel
  induction fuel with
  | zero =>
    intro o mr a hf h1 hle hall
    omega
  | succ fuel ih =>
    intro o mr a hf h1 hle hall
    have hr := hall a le_rfl hle
    by_cases hlt : a < mr
    · have hrec := ih o mr (a + 1) (by omega) (by omega) (by omega)
        (fun i hi1 hi2 => hall i (by omega) hi2)
      have hmap : backoff_delay a ::
            ((List.range (mr - (a + 1))).map fun j => backoff_delay (a + 1 + j)) =
          (List.range (mr - a)).map fun j => backoff_delay (a + j) := by
        have hn : mr - a = (mr - (a + 1)) + 1 := by omega
        rw [hn, List.range_succ_eq_map, List.map_cons, List.map_map]
        simp only [Nat.add_zero]
        congr 1
        apply List.map_congr_left
        intro j _
        simp only [Function.comp_apply]
        congr 1
        omega
      rw [auth_go]
      cases ho : o a with
      | ok token => rw [ho] at hr; simp [is_retryable] at hr
      | httpStatus s =>
        rw [ho] at hr
        simp only [is_retryable] at hr
        simp only [hr, if_true, if_pos hlt, hrec, hmap]
      | raised exc =>
        cases exc with
        | connError =>
          simp only [isinstance_client_connector_error, if_true, if_pos hlt, hrec, hmap]
        | sslError => rw [ho] at hr; simp [is_retryable] at hr
        | timeoutError =>
          simp only [isinstance_client_connector_error, isinstance_timeout_error,
            Bool.false_eq_true, if_false, if_true, if_pos hlt, hrec, hmap]
        | otherError =>
          simp only [isinstance_client_connector_error, isinstance_timeout_error,
            isinstance_client_ssl_error, Bool.false_eq_true, if_false, if_pos hlt, hrec, hmap]
    · have ha : a = mr := by omega
      subst ha
      have hz : a - a = 0 := by omega
      rw [auth_go]
      cases ho : o a with
      | ok token => rw [ho] at hr; simp [is_retryable] at hr
      | httpStatus s =>
        rw [ho] at hr
        simp only [is_retryable] at hr
        simp [hr, hz, lt_irrefl]
      | raised exc =>
        cases exc with
        | connError => simp [isinstance_client_connector_error, hz, lt_irrefl]
        | sslError => rw [ho] at hr; simp [is_retryable] at hr
        | timeoutError =>
          simp [isinstance_client_connector_error, isinstance_timeout_error, hz, lt_irrefl]
        | otherError =>
          simp [isinstance_client_connector_error, isinstance_timeout_error,
            isinstance_client_ssl_error, hz, lt_irrefl]

/-- Running the loop from attempt `a`, with retryable outcomes strictly
before attempt `k ≤ max_retries` and a 200-with-token at attempt `k`,
succeeds at attempt `k` with the backoff sleeps of attempts `a, …,
k-1`. -/
lemma auth_go_success_at : ∀ (n : Nat) (o : Nat → Outcome)
    (mr a k fuel : Nat) (tok : Option String),
    k - a = n → fuel = mr + 1 - a → 1 ≤ a → a ≤ k → k ≤ mr →
    (∀ i, a ≤ i → i < k → is_retryable (o i) = true) →
    o k = .ok tok → token_truthy tok = true →
    auth_go o mr a fuel =
      ⟨true, k, (List.range n).map fun j => backoff_delay (a + j)⟩ := by
  intro n
  induction n with
  | zero =>
    intro o mr a k fuel tok hn hf h1 hak hkmr hall hok htok
    have ha : a = k := by omega
    subst ha
    obtain ⟨fuel', rfl⟩ : ∃ g, fuel = g + 1 := ⟨mr - a, by omega⟩
    rw [auth_go, hok]
    simp [htok]
  | succ n ih =>
    intro o mr a k fuel tok hn hf h1 hak hkmr hall hok htok
    have halt : a < k := by omega
    have hltmr : a < mr := by omega
    obtain ⟨fuel', rfl⟩ : ∃ g, fuel = g + 1 := ⟨mr - a, by omega⟩
    have hrec := ih o mr (a + 1) k fuel' tok (by omega) (by omega) (by omega) (by omega) hkmr
      (fun i hi1 hi2 => hall i (by omega) hi2) hok htok
    have hr := hall a le_rfl halt
    have hmap : backoff_delay a :: ((List.range n).map fun j => backoff_delay (a + 1 + j)) =
        (List.range (n + 1)).map fun j => backoff_delay (a + j) := by
      rw [List.range_succ_eq_map, List.map_cons, List.map_map]
      simp only [Nat.add_zero]
      congr 1
      apply List.map_congr_left
      intro j _
      simp only [Function.comp_apply]
      congr 1
      omega
    rw [auth_go]
    cases ho : o a with
    | ok token => rw [ho] at hr; simp [is_retryable] at hr
    | httpStatus s =>
      rw [ho] at hr
      simp only [is_retryable] at hr
      simp only [hr, if_true, if_pos hltmr, hrec, hmap]
    | raised exc =>
      cases exc with
      | connError =>
        simp only [isinstance_client_connector_error, if_true, if_pos hltmr, hrec, hmap]
      | sslError => rw [ho] at hr; simp [is_retryable] at hr
      | timeoutError =>
        simp only [isinstance_client_connector_error, isinstance_timeout_error,
          Bool.false_eq_true, if_false, if_true, if_pos hltmr, hrec, hmap]
      | otherError =>
        simp only [isinstance_client_connector_error, isinstance_timeout_error,
          isinstance_client_ssl_error, Bool.false_eq_true, if_false, if_pos hltmr, hrec, hmap]

/-- The generic schedule starting at attempt 1 is `backoff_schedule`:
5, 10, 20, 40, … seconds. -/
lemma backoff_schedule_from_one (n : Nat) :
    ((List.range n).map fun j => backoff_delay (1 + j)) = backoff_schedule n := by
  unfold backoff_schedule
  apply List.map_congr_left
  intro j _
  unfold backoff_delay
  congr 2
  omega

/-- C3: over retryable outcomes (HTTP 500/502/503/504, connection
failure, timeout, or other unexpected exception), `authenticate` sleeps
exactly `5 * 2 ^ (attempt - 1)` seconds after each failed attempt
except the last, fails after exhausting all `max_retries` attempts, and
succeeds at the first attempt that yields HTTP 200 with a token,
sleeping only after the earlier failed attempts. -/
theorem authenticate_backoff_schedule (max_retries : Nat) (hmr : 1 ≤ max_retries)
    (o : Nat → Outcome) :
    ((∀ i, 1 ≤ i → i ≤ max_retries → is_retryable (o i) = true) →
      authenticate max_retries o =
        ⟨false, max_retries, backoff_schedule (max_retries - 1)⟩) ∧
    (∀ k tok, 1 ≤ k → k ≤ max_retries →
      (∀ i, 1 ≤ i → i < k → is_retryable (o i) = true) →
      o k = .ok tok → token_truthy tok = true →
      authenticate max_retries o = ⟨true, k, backoff_schedule (k - 1)⟩) := by
  constructor
  · intro hall
    rw [authenticate,
      auth_go_all_retryable max_retries o max_retries 1 (by omega) le_rfl hmr hall]
    rw [backoff_schedule_from_one]
  · intro k tok hk1 hkmr hall hok htok
    rw [authenticate,
      auth_go_success_at (k - 1) o max_retries 1 k max_retries tok (by omega) (by omega)
        le_rfl hk1 hkmr hall hok htok,
      backoff_schedule_from_one]

/-- Witness for C3: two 504 responses then a 200 with a token, with
`max_retries = 5`: success at attempt 3 after sleeping 5 then 10
seconds, with no sleep after the succeeding attempt. -/
theorem authenticate_backoff_schedule_witness :
    authenticate 5
        (fun i => if i == 3 then Outcome.ok (some "tok") else Outcome.httpStatus 504) =
      ⟨true, 3, [5, 10]⟩ := by
  have h := (authenticate_backoff_schedule 5 (by decide)
      (fun i => if i == 3 then Outcome.ok (some "tok") else Outcome.httpStatus 504)).2
      3 (some "tok") (by decide) (by decide)
      (fun i hi1 hi2 => by interval_cases i <;> decide)
      (by decide) (by decide)
  rw [h]
  decide

/-! ## API client: duration (api_client.py lines 247-273)

`datetime.strptime(s, "%H:%M")` succeeds exactly on strings made of a
1-2 digit hour 0..23, a colon, and a 1-2 digit minute 0..59, with
nothing else; it is modelled by `parse_hhmm`, returning minutes since
midnight. `py_split` models Python `str.split(sep)` on the character
list of a string (it always yields one more segment than there are
separators). -/

def py_split (sep : Char) : List Char → List (List Char)
  | [] => [[]]
  | c :: rest =>
    match py_split sep rest with
    | [] => [[c]]
    | seg :: segs => if c == sep then [] :: seg :: segs else (c :: seg) :: segs

/-- Decimal value of a digit string. -/
def chars_to_nat (cs : List Char) : Nat :=
  cs.foldl (fun n c => n * 10 + (c.toNat - 48)) 0

/-- `datetime.strptime(s, "%H:%M")`, reduced to the minutes since
midnight it denotes; `none` when strptime raises. -/
def parse_hhmm (s : String) : Option Nat :=
  match py_split ':' s.data with
  | [hp, mp] =>
    if hp ≠ [] ∧ hp.length ≤ 2 ∧ hp.all Char.isDigit ∧
       mp ≠ [] ∧ mp.length ≤ 2 ∧ mp.all Char.isDigit ∧
       chars_to_nat hp ≤ 23 ∧ chars_to_nat mp ≤ 59 then
      some (chars_to_nat hp * 60 + chars_to_nat mp)
    else none
  | _ => none

/-- The arithmetic of `_calculate_duration_minutes` once both times are
parsed: add a day to the end when it is before the start, then take the
difference in minutes; 60 when either parse failed. -/
def duration_from (pf pt : Option Nat) : Int :=
  match pf, pt with
  | some s, some e => (((if e < s then e + 1440 else e) : Nat) : Int) - (s : Int)
  | _, _ => 60

/-- api_client.py `ClubAPI._calculate_duration_minutes`. -/
def _calculate_duration_minutes (time_from time_to : String) : Int :=
  duration_from (parse_hhmm time_from) (parse_hhmm time_to)

/-! ## Claim C5 -/

/-- Any parsed time is at most 23:59 = 1439 minutes. -/
lemma parse_hhmm_le (s : String) (v : Nat) (h : parse_hhmm s = some v) : v ≤ 1439 := by
  unfold parse_hhmm at h
  split at h
  · split at h
    · rename_i hcond
      obtain rfl : _ = v := Option.some.inj h
      omega
    · exact Option.noConfusion h
  · exact Option.noConfusion h

/-- C5: the computed booking duration is a non-negative integer number
of minutes; when the parsed end is before the parsed start the interval
crosses midnight (24h are added before differencing), so 23:00 → 01:00
is exactly 120 minutes; and any parse failure yields the default 60. -/
theorem calculate_duration_minutes_spec (time_from time_to : String) :
    0 ≤ _calculate_duration_minutes time_from time_to ∧
    ((parse_hhmm time_from = none ∨ parse_hhmm time_to = none) →
      _calculate_duration_minutes time_from time_to = 60) ∧
    (∀ s e, parse_hhmm time_from = some s → parse_hhmm time_to = some e → e < s →
      _calculate_duration_minutes time_from time_to = (e : Int) + 1440 - (s : Int)) ∧
    _calculate_duration_minutes "23:00" "01:00" = 120 := by
  refine ⟨?_, ?_, ?_, by decide⟩
  · unfold _calculate_duration_minutes
    cases hf : parse_hhmm time_from with
    | none => norm_num [duration_from]
    | some s =>
      cases ht : parse_hhmm time_to with
      | none => norm_num [duration_from]
      | some e =>
        have hs := parse_hhmm_le time_from s hf
        simp only [duration_from]
        by_cases hlt : e < s
        · rw [if_pos hlt]; omega
        · rw [if_neg hlt]; omega
  · intro h
    unfold _calculate_duration_minutes
    cases hf : parse_hhmm time_from with
    | none => cases parse_hhmm time_to <;> rfl
    | some s =>
      cases ht : parse_hhmm time_to with
      | none => rfl
      | some e =>
        rcases h with h | h
        · rw [hf] at h; exact Option.noConfusion h
        · rw [ht] at h; exact Option.noConfusion h
  · intro s e hf ht hlt
    unfold _calculate_duration_minutes
    rw [hf, ht]
    simp only [duration_from, if_pos hlt]
    push_cast
    ring

/-- Witness for C5: an unparseable start time (hour 25) falls back to
the default 60 minutes. -/
theorem calculate_duration_minutes_spec_witness :
    _calculate_duration_minutes "25:00" "01:00" = 60 :=
  (calculate_duration_minutes_spec "25:00" "01:00").2.1 (Or.inl (by decide))

/-! ## API client: reservation payload (api_client.py lines 481-493) -/

/-- The JSON request body `create_booking` posts to `/reservations`
(`hosts` and `users` are the singleton arrays `[{"hostId": …}]` and
`[{"userId": …}]`, kept as the ids they carry). -/
structure ReservationPayload where
  userId : Int
  date : String
  duration : Int
  contactPhone : String
  contactEmail : String
  note : String
  pin : String
  status : Int
  hostIds : List Int
  userIds : List Int
deriving DecidableEq, Repr

/-- The payload built by `create_booking` from the already-resolved
host id, formatted timestamp and computed duration. `contactPhone` is
`contact_phone or ""`, which is the string itself in every case; the
email is kept only when non-empty, containing `'@'`, and with a `'.'`
in `contact_email.split("@")[1]`. -/
def create_booking_payload (user_id host_id pc_number : Int) (date_time : String)
    (duration : Int) (contact_phone contact_email : String) : ReservationPayload :=
  { userId := user_id
    date := date_time
    duration := duration
    contactPhone := contact_phone
    contactEmail :=
      if contact_email != "" && contact_email.data.contains '@' &&
          (((py_split '@' contact_email.data)[1]?).getD []).contains '.' then
        contact_email
      else ""
    note := "Бронь из Telegram бота (ПК " ++ toString pc_number ++ ")"
    pin := ""
    status := 0
    hostIds := [host_id]
    userIds := [user_id] }

/-! ## Claim C6 -/

/-- Everything after the first `'@'` of the string — the reading of
"the portion after the `'@'`" in the claim. -/
def after_first_at : List Char → List Char
  | [] => []
  | c :: rest => if c == '@' then rest else after_first_at rest

/-- The claim's validity predicate, written from its words: the string
contains an `'@'` and the portion after the `'@'` contains a `'.'`. -/
def spec_email_valid (e : String) : Bool :=
  e.data.contains '@' && (after_first_at e.data).contains '.'

/-- The amended validity predicate: the segment strictly between the
first `'@'` and the next `'@'` (or the end of the string) must contain
the `'.'`. -/
def spec_email_valid_amended (e : String) : Bool :=
  e.data.contains '@' && ((after_first_at e.data).takeWhile (fun c => c != '@')).contains '.'

/-- Counterexample to C6 as stated: `"a@@b.c"` contains `'@'` and the
portion after it, `"@b.c"`, contains `'.'`, yet the payload carries the
empty string, because Python's `split("@")[1]` is the empty segment
between the two `'@'`s. -/
theorem create_booking_payload_email_counterexample :
    spec_email_valid "a@@b.c" = true ∧
    (create_booking_payload 1 5 2 "2025-01-15T14:00:00.000Z" 60 "" "a@@b.c").contactEmail
      = "" := by
  constructor
  · decide
  · decide

/-- `py_split` always returns the leading separator-free segment first. -/
lemma py_split_head (sep : Char) : ∀ cs : List Char,
    ∃ segs, py_split sep cs = cs.takeWhile (fun c => c != sep) :: segs := by
  intro cs
  induction cs with
  | nil => exact ⟨[], rfl⟩
  | cons c rest ih =>
    obtain ⟨segs, hsegs⟩ := ih
    rw [py_split, hsegs]
    by_cases hc : c = sep
    · subst hc
      refine ⟨List.takeWhile (fun x => x != c) rest :: segs, ?_⟩
      simp [List.takeWhile_cons]
    · refine ⟨segs, ?_⟩
      have hb : (c == sep) = false := beq_eq_false_iff_ne.mpr hc
      simp [hb, hc, List.takeWhile_cons]

/-- When the string contains a `'@'`, `split("@")[1]` is the segment
between the first `'@'` and the next one (or the end). -/
lemma py_split_second (cs : List Char) (h : cs.contains '@' = true) :
    ((py_split '@' cs)[1]?).getD [] = (after_first_at cs).takeWhile (fun c => c != '@') := by
  induction cs with
  | nil => simp at h
  | cons c rest ih =>
    obtain ⟨segs, hsegs⟩ := py_split_head '@' rest
    by_cases hc : c = '@'
    · subst hc
      rw [py_split, hsegs]
      simp [after_first_at]
    · have hb : (c == '@') = false := beq_eq_false_iff_ne.mpr hc
      have h' : rest.contains '@' = true := by
        have hmem : '@' = c ∨ '@' ∈ rest := by simpa [List.contains_cons, hb] using h
        rcases hmem with h1 | h2
        · exact absurd h1.symm hc
        · simpa using h2
      have := ih h'
      rw [hsegs] at this
      rw [py_split, hsegs]
      simpa [hb, after_first_at] using this

/-- C6 amended: the payload's `contactEmail` equals the input exactly
when the amended predicate holds (an `'@'` is present and the segment
strictly between the first `'@'` and the next `'@'`-or-end contains a
`'.'`), and is the empty string otherwise. -/
theorem create_booking_payload_email_amended (user_id host_id pc_number : Int)
    (date_time : String) (duration : Int) (contact_phone contact_email : String) :
    (create_booking_payload user_id host_id pc_number date_time duration
        contact_phone contact_email).contactEmail =
      if spec_email_valid_amended contact_email then contact_email else "" := by
  unfold create_booking_payload spec_email_valid_amended
  cases hat : contact_email.data.contains '@' with
  | false => simp [hat]
  | true =>
    have hA : (contact_email != "") = true := by
      rcases contact_email with ⟨cs⟩
      cases cs with
      | nil => simp at hat
      | cons c cs' => rfl
    rw [py_split_second contact_email.data hat]
    simp [hA, hat]

/-- Witness for C6 (illustrating the two examples in the claim):
`"bad-email"` is sent as the empty string, `"a@b.co"` unchanged. -/
theorem create_booking_payload_email_amended_witness :
    (create_booking_payload 1 5 2 "2025-01-15T14:00:00.000Z" 60 "" "bad-email").contactEmail
        = "" ∧
    (create_booking_payload 1 5 2 "2025-01-15T14:00:00.000Z" 60 "" "a@b.co").contactEmail
        = "a@b.co" := by
  constructor
  · rw [create_booking_payload_email_amended]
    decide
  · rw [create_booking_payload_email_amended]
    decide

/-! ## API client: response unwrapping (api_client.py lines 508-521) -/

/-- A parsed JSON value, as `response.json()` yields it. -/
inductive Json where
  | null
  | bool (b : Bool)
  | num (n : Int)
  | str (s : String)
  | arr (elems : List Json)
  | obj (fields : List (String × Json))
deriving Repr

/-- Python truthiness of a JSON value: `None`, `False`, `0`, `""`, `[]`
and `{}` are falsy. -/
def json_truthy : Json → Bool
  | .null => false
  | .bool b => b
  | .num n => n != 0
  | .str s => s != ""
  | .arr elems => !elems.isEmpty
  | .obj fields => !fields.isEmpty

/-- Python dict lookup on a parsed JSON object (keys are unique after
parsing, so first match suffices). -/
def obj_lookup (fields : List (String × Json)) (k : String) : Option Json :=
  (fields.find? fun p => p.1 == k).map Prod.snd

/-- The HTTP-200 branch of `create_booking`: if the body is a dict with
a `result` key, take `result` when it is a dict, else `{"id": result}`
when it is truthy, else `{}`; a body without `result` (or not a dict)
is returned bare. -/
def create_booking_unwrap (data : Json) : Json :=
  match data with
  | .obj fields =>
    match obj_lookup fields "result" with
    | some result =>
      match result with
      | .obj robj => .obj robj
      | _ => if json_truthy result then .obj [("id", result)] else .obj []
    | none => data
  | _ => data

/-! ## Claim C7 -/

/-- Counterexample to C7 as stated: the scalar `result` value `0` is
not wrapped as `{"id": 0}`; being falsy, it yields the empty object. -/
theorem create_booking_unwrap_counterexample :
    create_booking_unwrap (Json.obj [("result", Json.num 0)]) = Json.obj [] ∧
    Json.obj ([] : List (String × Json)) ≠ Json.obj [("id", Json.num 0)] := by
  constructor
  · rfl
  · intro h
    simp at h

/-- C7 amended: on HTTP 200, `create_booking` returns the `result`
object when `result` is an object; when `result` is present but not an
object, returns `{id: result}` if `result` is truthy and the empty
object `{}` if it is falsy (`null`, `false`, `0`, `""`, `[]`);
otherwise (no `result` key, or a non-object body) returns the bare
body. -/
theorem create_booking_unwrap_spec (data : Json) :
    (∀ fields robj, data = .obj fields →
      obj_lookup fields "result" = some (.obj robj) →
      create_booking_unwrap data = .obj robj) ∧
    (∀ fields r, data = .obj fields → obj_lookup fields "result" = some r →
      (∀ ro, r ≠ .obj ro) →
      create_booking_unwrap data =
        if json_truthy r then .obj [("id", r)] else .obj []) ∧
    (∀ fields, data = .obj fields → obj_lookup fields "result" = none →
      create_booking_unwrap data = data) ∧
    ((∀ fields, data ≠ .obj fields) → create_booking_unwrap data = data) := by
  refine ⟨?_, ?_, ?_, ?_⟩
  · rintro fields robj rfl hres
    simp [create_booking_unwrap, hres]
  · rintro fields r rfl hres hno
    cases r with
    | obj ro => exact absurd rfl (hno ro)
    | null => simp [create_booking_unwrap, hres, json_truthy]
    | bool b => simp [create_booking_unwrap, hres]
    | num n => simp [create_booking_unwrap, hres]
    | str s => simp [create_booking_unwrap, hres]
    | arr elems => simp [create_booking_unwrap, hres]
  · rintro fields rfl hres
    simp [create_booking_unwrap, hres]
  · intro hno
    cases data with
    | obj fields => exact absurd rfl (hno fields)
    | null => rfl
    | bool b => rfl
    | num n => rfl
    | str s => rfl
    | arr elems => rfl

/-- Witness for C7: a `{"result": {"id": 7}}` envelope unwraps to the
inner record. -/
theorem create_booking_unwrap_spec_witness :
    create_booking_unwrap (Json.obj [("result", Json.obj [("id", Json.num 7)])]) =
      Json.obj [("id", Json.num 7)] :=
  (create_booking_unwrap_spec (Json.obj [("result", Json.obj [("id", Json.num 7)])])).1
    [("result", Json.obj [("id", Json.num 7)])] [("id", Json.num 7)] rfl rfl

/-- Witness for C10: deleting an absent id 9 from a one-row ledger
leaves the ledger unchanged. -/
theorem delete_booking_frame_witness :
    delete_booking ⟨[⟨1, 7, 3, "2025-01-15", "10:00", "12:00", none⟩], 2⟩ 9 =
      ⟨[⟨1, 7, 3, "2025-01-15", "10:00", "12:00", none⟩], 2⟩ :=
  (delete_booking_frame ⟨[⟨1, 7, 3, "2025-01-15", "10:00", "12:00", none⟩], 2⟩ 9).2.1
    (by decide)
